import Mathlib

/-!
Verification of the voice-controllm daemon core (audio pipeline, VAD state
machine, engine orchestration, controller lifecycle) against its
natural-language specification.  Rust `f32` sample/probability values are
modelled as rationals (the code only compares, adds and divides them),
`usize` counters as `Nat`, fallible calls as `Except`, and external
collaborators (ONNX inference, whisper inference, the audio device, the
rubato FFT core) as oracle parameters.
-/

set_option linter.unusedVariables false

/-- Events emitted by the VAD state machine (src/daemon/src/vad.rs, `VadEvent`). -/
inductive VadEvent where
  | SpeechStart
  | SpeechEnd
deriving DecidableEq, Repr

/-- Configuration of the VAD state machine (vad.rs, `VadConfig`). -/
structure VadConfig where
  threshold : ℚ
  min_speech_chunks : ℕ
  min_silence_chunks : ℕ
deriving DecidableEq, Repr

/-- Model of `VadConfig::default()` (vad.rs lines 47-55). -/
def VadConfig.defaultConfig : VadConfig :=
  { threshold := mkRat 1 2, min_speech_chunks := 2, min_silence_chunks := 8 }

/-- Mutable state of the VAD hysteresis machine (vad.rs, `VadStateMachine`). -/
structure VadStateMachine where
  config : VadConfig
  is_speaking : Bool
  speech_chunk_count : ℕ
  silence_chunk_count : ℕ
deriving DecidableEq, Repr

/-- Model of `VadStateMachine::new` (vad.rs lines 68-75). -/
def VadStateMachine.new (config : VadConfig) : VadStateMachine :=
  { config := config, is_speaking := false, speech_chunk_count := 0, silence_chunk_count := 0 }

/-- The per-chunk speech classification `probability >= threshold`
(vad.rs line 79, `let is_speech = probability >= self.config.threshold`). -/
def vadIsSpeech (config : VadConfig) (probability : ℚ) : Bool :=
  decide (config.threshold ≤ probability)

/-- Model of `VadStateMachine::process` (vad.rs lines 78-112).  The Rust code mutates the
counters in place and then compares the updated counter against the configured
minimum; here the updated value `count + 1` appears directly in the comparison
and in the returned record. -/
def VadStateMachine.process (m : VadStateMachine) (probability : ℚ) :
    VadStateMachine × Option VadEvent :=
  if vadIsSpeech m.config probability then
    if !m.is_speaking && decide (m.config.min_speech_chunks ≤ m.speech_chunk_count + 1) then
      ({ m with is_speaking := true, speech_chunk_count := m.speech_chunk_count + 1,
                silence_chunk_count := 0 }, some VadEvent.SpeechStart)
    else
      ({ m with speech_chunk_count := m.speech_chunk_count + 1,
                silence_chunk_count := 0 }, none)
  else
    if m.is_speaking && decide (m.config.min_silence_chunks ≤ m.silence_chunk_count + 1) then
      ({ m with is_speaking := false, silence_chunk_count := m.silence_chunk_count + 1,
                speech_chunk_count := 0 }, some VadEvent.SpeechEnd)
    else
      ({ m with silence_chunk_count := m.silence_chunk_count + 1,
                speech_chunk_count := 0 }, none)

/-- A sequence of `process` calls: the events of the successive calls, and the
machine state left after all of them. -/
def VadStateMachine.runList (m : VadStateMachine) :
    List ℚ → List (Option VadEvent) × VadStateMachine
  | [] => ([], m)
  | p :: ps =>
    let r := m.process p
    let rest := r.1.runList ps
    (r.2 :: rest.1, rest.2)

/-- Machine state after feeding a list of probabilities. -/
def VadStateMachine.stateAfter (m : VadStateMachine) (ps : List ℚ) : VadStateMachine :=
  (m.runList ps).2

/-- Events produced by a freshly constructed machine on a probability sequence. -/
def vadEvents (config : VadConfig) (ps : List ℚ) : List (Option VadEvent) :=
  ((VadStateMachine.new config).runList ps).1

/-- Length of the trailing run of elements of `ps` satisfying `pred`
(the number of consecutive same-classification chunks at the end). -/
def trailingRun (pred : ℚ → Bool) (ps : List ℚ) : ℕ :=
  (ps.reverse.takeWhile pred).length

/-- Spec-side predicate for claim C9: exactly one of the two counters is nonzero. -/
def exactlyOneCounterNonzero (m : VadStateMachine) : Prop :=
  (m.speech_chunk_count ≠ 0 ∧ m.silence_chunk_count = 0) ∨
  (m.speech_chunk_count = 0 ∧ m.silence_chunk_count ≠ 0)

/-- Spec-side predicate: at most one of the two counters is nonzero. -/
def atMostOneCounterNonzero (m : VadStateMachine) : Prop :=
  m.speech_chunk_count = 0 ∨ m.silence_chunk_count = 0

/-- Concrete configuration used by witnesses: the `VadConfig::default()` values. -/
def cfgW : VadConfig := VadConfig.defaultConfig

/-- Concrete probability sequence used by witnesses: one silence chunk followed
by two speech chunks (the end-to-end scenario of spec §8). -/
def psW : List ℚ := [mkRat 1 5, mkRat 4 5, mkRat 9 10]

/-- One transcription call of `WhisperTranscriber::transcribe`
(src/daemon/src/transcribe/whisper.rs lines 63-117): rejects any sample rate
other than 16000, otherwise runs the external whisper inference (the oracle
`infer`, returning the successfully extracted segment texts or an inference
error), concatenates the segments and trims the result. -/
def WhisperTranscriber.transcribe (infer : List ℚ → Except String (List String))
    (audio : List ℚ) (sample_rate : ℕ) : Except String String :=
  if sample_rate ≠ 16000 then
    Except.error "Whisper expects 16kHz audio. Resample before calling transcribe."
  else
    match infer audio with
    | Except.error e => Except.error e
    | Except.ok segments =>
        Except.ok ((segments.foldl (fun acc s => acc ++ s) "").trim)

/-- State carried by `Engine::run_loop` across VAD-sized chunks: the VAD state
machine and the accumulated speech buffer (src/daemon/src/engine.rs lines
157-162; the VAD inference session itself is external). -/
structure EngineLoopState where
  sm : VadStateMachine
  speech_buffer : List ℚ

/-- The `SpeechEnd` branch of the run loop (engine.rs lines 206-221): if the
speech buffer is non-empty, transcribe it at `VAD_SAMPLE_RATE` (16000) and
collect the texts passed to `on_transcription` (only non-empty results);
transcription errors are logged and produce no callback. -/
def speechEndOutputs (infer : List ℚ → Except String (List String))
    (buf : List ℚ) : List String :=
  if buf.isEmpty then []
  else
    match WhisperTranscriber.transcribe infer buf 16000 with
    | Except.ok text => if text = "" then [] else [text]
    | Except.error _ => []

/-- Handling of one complete VAD-sized chunk inside `Engine::run_loop`
(engine.rs lines 185-229): append the chunk to the speech buffer if the VAD
currently reports speaking, then step the VAD state machine with the chunk's
inference probability `prob` (the Silero inference that produced `prob` is
external) and act on the event: on `SpeechStart` clear the buffer and append
the triggering chunk, on `SpeechEnd` transcribe and clear.  Returns the new
loop state and the texts passed to `on_transcription` during this chunk. -/
def Engine.processVadChunk (infer : List ℚ → Except String (List String))
    (st : EngineLoopState) (chunk : List ℚ) (prob : ℚ) :
    EngineLoopState × List String :=
  let buf1 := if st.sm.is_speaking then st.speech_buffer ++ chunk else st.speech_buffer
  match st.sm.process prob with
  | (sm1, some VadEvent.SpeechStart) =>
      ({ sm := sm1, speech_buffer := [] ++ chunk }, [])
  | (sm1, some VadEvent.SpeechEnd) =>
      ({ sm := sm1, speech_buffer := [] }, speechEndOutputs infer buf1)
  | (sm1, none) =>
      ({ sm := sm1, speech_buffer := buf1 }, [])

/-- Loaded model components (engine.rs, `InitializedComponents`), abstract over
the concrete VAD-session and transcriber handles. -/
structure InitializedComponents (V T : Type) where
  vad : V
  transcriber : T

/-- The transcription engine (engine.rs, `Engine`): config and model manager are
external; only the `components` option matters for the lifecycle claims. -/
structure Engine (V T : Type) where
  components : Option (InitializedComponents V T)

/-- Model of `Engine::is_initialized` (engine.rs lines 69-71). -/
def Engine.is_initialized {V T : Type} (e : Engine V T) : Bool :=
  e.components.isSome

/-- Progress events of engine initialization (engine.rs, `InitEvent`). -/
inductive InitEvent where
  | Downloading (model : String) (bytes total : ℕ)
  | Loading (model : String)
  | Ready
deriving DecidableEq, Repr

/-- Model of `Engine::initialize` (engine.rs lines 77-125), with the external
collaborators as oracles: `ensure_model` for the VAD and whisper models (the
ModelManager) and the two component constructors.  Returns the engine after the
call, the result, and the progress events reported to `on_progress`, in order.
Each `?`-failure returns early with the components field untouched. -/
def Engine.initializeEngine {V T : Type} (e : Engine V T) (whisperModelName : String)
    (ensureVadModel : Except String String)
    (ensureWhisperModel : Except String String)
    (mkVad : String → Except String V)
    (mkTranscriber : String → Except String T) :
    Engine V T × Except String Unit × List InitEvent :=
  match ensureVadModel with
  | Except.error msg => (e, Except.error msg, [InitEvent.Loading "silero-vad"])
  | Except.ok vadPath =>
    match ensureWhisperModel with
    | Except.error msg =>
        (e, Except.error msg,
         [InitEvent.Loading "silero-vad", InitEvent.Loading whisperModelName])
    | Except.ok whisperPath =>
      match mkVad vadPath with
      | Except.error msg =>
          (e, Except.error msg,
           [InitEvent.Loading "silero-vad", InitEvent.Loading whisperModelName])
      | Except.ok vad =>
        match mkTranscriber whisperPath with
        | Except.error msg =>
            (e, Except.error msg,
             [InitEvent.Loading "silero-vad", InitEvent.Loading whisperModelName])
        | Except.ok transcriber =>
            ({ components := some ⟨vad, transcriber⟩ }, Except.ok (),
             [InitEvent.Loading "silero-vad", InitEvent.Loading whisperModelName,
              InitEvent.Ready])

/-- Errors distinguishable at the entry of `Engine::run_loop`. -/
inductive RunLoopError where
  | notInitialized
  | captureStartFailed (msg : String)
deriving DecidableEq, Repr

/-- Entry of `Engine::run_loop` (engine.rs lines 131-150): the components gate
runs before any device I/O.  `captureStart` is the external
`AudioCapture::start()` (returning the device sample rate on success); the
boolean records whether it was invoked during this call. -/
def Engine.runLoopEntry {V T : Type} (e : Engine V T)
    (captureStart : Except String ℕ) : Except RunLoopError ℕ × Bool :=
  match e.components with
  | none => (Except.error RunLoopError.notInitialized, false)
  | some _ =>
    match captureStart with
    | Except.ok sample_rate => (Except.ok sample_rate, true)
    | Except.error msg => (Except.error (RunLoopError.captureStartFailed msg), true)

/-- Controller states (src/daemon/src/controller.rs, `ControllerState`). -/
inductive ControllerState where
  | Initializing
  | Stopped
  | Listening
  | Paused
deriving DecidableEq, Repr

/-- Events broadcast by the controller (controller.rs lines 199-224). -/
inductive CtrlEvent where
  | StateChange (new_state : ControllerState)
  | DaemonError (message : String)
deriving DecidableEq, Repr

/-- The controller (controller.rs, `Controller`): `engine` is the engine slot,
`engine_handle` models the running engine task (the engine moved into the
spawned task; the cancellation token and join handle are implicit — joining is
modelled as completing and returning the engine), and `shutdown_tx` the one-shot
shutdown sender slot (`Some` until consumed). -/
structure Controller (V T : Type) where
  state : ControllerState
  engine : Option (Engine V T)
  engine_handle : Option (Engine V T)
  shutdown_tx : Option Unit

/-- Model of `Controller::start_listening` (controller.rs lines 104-140).  Returns the
controller after the call, the result, and the events broadcast. -/
def Controller.start_listening {V T : Type} (c : Controller V T) :
    Controller V T × Except String Unit × List CtrlEvent :=
  match c.state with
  | ControllerState.Paused =>
    match c.engine with
    | none => (c, Except.error "Engine not available", [])
    | some e =>
      if e.is_initialized = false then
        ({ c with engine := some e }, Except.error "Engine not initialized", [])
      else
        ({ c with engine := none, engine_handle := some e,
                  state := ControllerState.Listening },
         Except.ok (), [CtrlEvent.StateChange ControllerState.Listening])
  | ControllerState.Listening => (c, Except.ok (), [])
  | ControllerState.Stopped => (c, Except.error "Daemon is stopped", [])
  | ControllerState.Initializing =>
      (c, Except.error "Daemon is still initializing", [])

/-- Model of `Controller::stop_listening` (controller.rs lines 143-172): from `Listening`
cancel and join the engine task (modelled as completing and handing the engine
back), reclaim the engine, transition to `Paused` and broadcast. -/
def Controller.stop_listening {V T : Type} (c : Controller V T) :
    Controller V T × Except String Unit × List CtrlEvent :=
  match c.state with
  | ControllerState.Listening =>
    match c.engine_handle with
    | some e =>
        ({ c with engine_handle := none, engine := some e,
                  state := ControllerState.Paused },
         Except.ok (), [CtrlEvent.StateChange ControllerState.Paused])
    | none =>
        ({ c with state := ControllerState.Paused },
         Except.ok (), [CtrlEvent.StateChange ControllerState.Paused])
  | ControllerState.Paused => (c, Except.ok (), [])
  | ControllerState.Stopped => (c, Except.error "Daemon is stopped", [])
  | ControllerState.Initializing =>
      (c, Except.error "Daemon is still initializing", [])

/-- Model of `Controller::shutdown` (controller.rs lines 175-186): best-effort
`stop_listening`, transition to `Stopped`, broadcast, and send the one-shot
shutdown signal if the sender is still present.  Returns the controller, the
events broadcast, and the number of shutdown signals sent by this call. -/
def Controller.shutdown {V T : Type} (c : Controller V T) :
    Controller V T × List CtrlEvent × ℕ :=
  let r := c.stop_listening
  let c1 := { r.1 with state := ControllerState.Stopped }
  match c1.shutdown_tx with
  | some _ =>
      ({ c1 with shutdown_tx := none },
       r.2.2 ++ [CtrlEvent.StateChange ControllerState.Stopped], 1)
  | none =>
      (c1, r.2.2 ++ [CtrlEvent.StateChange ControllerState.Stopped], 0)

/-- Audio buffer (src/daemon/src/audio.rs, `AudioBuffer`). -/
structure AudioBuffer where
  samples : List ℚ
  sample_rate : ℕ

/-- Model of `AudioBuffer::duration_secs` (audio.rs lines 39-44): guarded against a zero
sample rate before dividing. -/
def AudioBuffer.duration_secs (b : AudioBuffer) : ℚ :=
  if b.sample_rate = 0 then 0
  else (b.samples.length : ℚ) / (b.sample_rate : ℚ)

/-- The per-chunk loop of `AudioResampler::process` (audio.rs lines 117-141):
`chunks_exact(chunk_size_in)` — each complete chunk is fed to the rubato FFT
resampler (the external `inner` oracle, taking and returning its internal
state) and its output frames are appended; the partial tail beyond the last
complete chunk is neither resampled nor carried over. -/
def resampleChunks {σ : Type} (inner : σ → List ℚ → σ × List ℚ) (cs : ℕ)
    (s : σ) (input : List ℚ) : σ × List ℚ :=
  if h : 0 < cs ∧ cs ≤ input.length then
    let r := inner s (input.take cs)
    let rest := resampleChunks inner cs r.1 (input.drop cs)
    (rest.1, r.2 ++ rest.2)
  else (s, [])
termination_by input.length
decreasing_by simp [List.length_drop]; omega

/-- Model of `AudioResampler` (audio.rs lines 83-152) with the rubato FFT core abstracted
to its internal state type `σ` and per-chunk function `inner`
(`chunk_size_out` is `output_frames_max()` captured at construction). -/
structure AudioResampler (σ : Type) where
  inner : σ → List ℚ → σ × List ℚ
  state : σ
  chunk_size_in : ℕ
  chunk_size_out : ℕ

/-- Model of `AudioResampler::process` (audio.rs lines 117-141). -/
def AudioResampler.process {σ : Type} (r : AudioResampler σ) (input : List ℚ) :
    AudioResampler σ × List ℚ :=
  if input.isEmpty then (r, [])
  else
    let res := resampleChunks r.inner r.chunk_size_in r.state input
    ({ r with state := res.1 }, res.2)

-- ### Witness inputs

/-- Witness oracle: whisper inference that always yields one segment. -/
def infer0 : List ℚ → Except String (List String) := fun _ => Except.ok ["hello"]

/-- Witness oracle: whisper inference that always fails. -/
def inferErr0 : List ℚ → Except String (List String) := fun _ => Except.error "inference failed"

/-- Witness loop state: not speaking, one speech chunk already counted. -/
def stStart0 : EngineLoopState :=
  { sm := { config := cfgW, is_speaking := false, speech_chunk_count := 1,
            silence_chunk_count := 0 },
    speech_buffer := [mkRat 3 10] }

/-- Witness loop state: speaking, seven silence chunks already counted. -/
def stEnd0 : EngineLoopState :=
  { sm := { config := cfgW, is_speaking := true, speech_chunk_count := 0,
            silence_chunk_count := 7 },
    speech_buffer := [mkRat 3 10] }

/-- Witness chunk of resampled audio samples. -/
def chunk0 : List ℚ := [mkRat 1 10, mkRat 2 10]

/-- Witness engine without loaded components. -/
def engineNone0 : Engine Unit Unit := { components := none }

/-- Witness controller: paused, holding an uninitialized engine, sender armed. -/
def ctrlPaused0 : Controller Unit Unit :=
  { state := ControllerState.Paused, engine := some engineNone0,
    engine_handle := none, shutdown_tx := some () }

/-- Witness resampler over a trivial inner state: 2 input frames per chunk,
3 output frames per chunk. -/
def resampler0 : AudioResampler Unit :=
  { inner := fun s c => (s, [0, 0, 0]), state := (), chunk_size_in := 2,
    chunk_size_out := 3 }

/-- Witness resampler input: two complete chunks and a partial tail. -/
def resamplerInput0 : List ℚ := [1, 2, 3, 4, 5]

/-- Witness audio buffer with a zero sample rate. -/
def bufZeroRate0 : AudioBuffer := { samples := [1, 2], sample_rate := 0 }

-- ### Lemmas about the VAD state machine

theorem process_config (m : VadStateMachine) (p : ℚ) :
    ((m.process p).1).config = m.config := by
  rw [VadStateMachine.process]
  split <;> split <;> rfl

theorem process_snd (m : VadStateMachine) (p : ℚ) :
    (m.process p).2 =
      if vadIsSpeech m.config p then
        (if !m.is_speaking && decide (m.config.min_speech_chunks ≤ m.speech_chunk_count + 1)
         then some VadEvent.SpeechStart else none)
      else
        (if m.is_speaking && decide (m.config.min_silence_chunks ≤ m.silence_chunk_count + 1)
         then some VadEvent.SpeechEnd else none) := by
  rw [VadStateMachine.process]
  split <;> split <;> rfl

theorem process_speech_counts (m : VadStateMachine) (p : ℚ)
    (h : vadIsSpeech m.config p = true) :
    ((m.process p).1).speech_chunk_count = m.speech_chunk_count + 1 ∧
    ((m.process p).1).silence_chunk_count = 0 := by
  rw [VadStateMachine.process, if_pos h]
  split <;> exact ⟨rfl, rfl⟩

theorem process_silence_counts (m : VadStateMachine) (p : ℚ)
    (h : vadIsSpeech m.config p = false) :
    ((m.process p).1).speech_chunk_count = 0 ∧
    ((m.process p).1).silence_chunk_count = m.silence_chunk_count + 1 := by
  rw [VadStateMachine.process, if_neg (by simp [h])]
  split <;> exact ⟨rfl, rfl⟩

theorem stateAfter_nil (m : VadStateMachine) : m.stateAfter [] = m := rfl

theorem stateAfter_cons (m : VadStateMachine) (p : ℚ) (ps : List ℚ) :
    m.stateAfter (p :: ps) = ((m.process p).1).stateAfter ps := rfl

theorem stateAfter_append (m : VadStateMachine) (ps qs : List ℚ) :
    m.stateAfter (ps ++ qs) = (m.stateAfter ps).stateAfter qs := by
  induction ps generalizing m with
  | nil => rfl
  | cons p ps ih => simp [stateAfter_cons, ih]

theorem stateAfter_concat (m : VadStateMachine) (ps : List ℚ) (p : ℚ) :
    m.stateAfter (ps ++ [p]) = ((m.stateAfter ps).process p).1 := by
  rw [stateAfter_append]; rfl

theorem runList_length (m : VadStateMachine) (ps : List ℚ) :
    ((m.runList ps).1).length = ps.length := by
  induction ps generalizing m with
  | nil => rfl
  | cons p ps ih => simp [VadStateMachine.runList, ih]

theorem runList_getElem? (ps : List ℚ) (m : VadStateMachine) (i : ℕ)
    (h : i < ps.length) :
    ((m.runList ps).1)[i]? = some ((m.stateAfter (ps.take i)).process ps[i]).2 := by
  induction ps generalizing m i with
  | nil => simp at h
  | cons p ps ih =>
    cases i with
    | zero => simp [VadStateMachine.runList, VadStateMachine.stateAfter]
    | succ i =>
      have h' : i < ps.length := by simpa using h
      simpa [VadStateMachine.runList, stateAfter_cons] using ih (m.process p).1 i h'

theorem trailingRun_concat (pred : ℚ → Bool) (ps : List ℚ) (p : ℚ) :
    trailingRun pred (ps ++ [p]) =
      if pred p then trailingRun pred ps + 1 else 0 := by
  unfold trailingRun
  rw [List.reverse_append]
  simp [List.takeWhile_cons]
  split <;> simp_all

theorem trailingRun_le_length (pred : ℚ → Bool) (ps : List ℚ) :
    trailingRun pred ps ≤ ps.length := by
  unfold trailingRun
  calc (ps.reverse.takeWhile pred).length ≤ ps.reverse.length :=
        List.Sublist.length_le (List.takeWhile_sublist pred)
    _ = ps.length := List.length_reverse ps

/-- The counters of the machine reached from a fresh construction are exactly the
trailing same-classification runs of the input, and the configuration never changes. -/
theorem stateAfter_new_spec (config : VadConfig) (ps : List ℚ) :
    ((VadStateMachine.new config).stateAfter ps).config = config ∧
    ((VadStateMachine.new config).stateAfter ps).speech_chunk_count =
      trailingRun (vadIsSpeech config) ps ∧
    ((VadStateMachine.new config).stateAfter ps).silence_chunk_count =
      trailingRun (fun p => !(vadIsSpeech config p)) ps := by
  induction ps using List.reverseRecOn with
  | nil => exact ⟨rfl, rfl, rfl⟩
  | append_singleton ps p ih =>
    obtain ⟨hc, hs, hl⟩ := ih
    rw [stateAfter_concat]
    refine ⟨by rw [process_config, hc], ?_, ?_⟩ <;>
    · rw [trailingRun_concat]
      cases hsp : vadIsSpeech config p <;>
      · first
        | (have hpc := process_speech_counts ((VadStateMachine.new config).stateAfter ps) p
             (by rw [hc]; exact hsp)
           simp_all)
        | (have hpc := process_silence_counts ((VadStateMachine.new config).stateAfter ps) p
             (by rw [hc]; exact hsp)
           simp_all)

theorem take_succ_getElem (ps : List ℚ) (i : ℕ) (h : i < ps.length) :
    ps.take (i+1) = ps.take i ++ [ps[i]] := by
  rw [List.take_succ]
  simp [List.getElem?_eq_getElem h]

/-- Per-call characterization: `process` returns `SpeechStart` iff the chunk
classifies as speech, the machine is not speaking, and the incremented speech
counter has reached `min_speech_chunks`. -/
theorem process_start_iff (m : VadStateMachine) (p : ℚ) :
    (m.process p).2 = some VadEvent.SpeechStart ↔
      (vadIsSpeech m.config p = true ∧ m.is_speaking = false ∧
       m.config.min_speech_chunks ≤ m.speech_chunk_count + 1) := by
  rw [process_snd]
  cases h : vadIsSpeech m.config p <;> simp [h]

/-- Per-call characterization: `process` returns `SpeechEnd` iff the chunk
classifies as silence, the machine is speaking, and the incremented silence
counter has reached `min_silence_chunks`. -/
theorem process_end_iff (m : VadStateMachine) (p : ℚ) :
    (m.process p).2 = some VadEvent.SpeechEnd ↔
      (vadIsSpeech m.config p = false ∧ m.is_speaking = true ∧
       m.config.min_silence_chunks ≤ m.silence_chunk_count + 1) := by
  rw [process_snd]
  cases h : vadIsSpeech m.config p <;> simp [h]

/-- Event characterization: `SpeechStart` is returned by call `i` iff the machine was not speaking before
that call, chunk `i` classifies as speech, and the trailing run of consecutive
speech-classified chunks through chunk `i` has reached `min_speech_chunks`. -/
theorem vad_start_iff (config : VadConfig) (ps : List ℚ) (i : ℕ) (h : i < ps.length) :
    (vadEvents config ps)[i]? = some (some VadEvent.SpeechStart) ↔
      (((VadStateMachine.new config).stateAfter (ps.take i)).is_speaking = false ∧
       vadIsSpeech config ps[i] = true ∧
       config.min_speech_chunks ≤ trailingRun (vadIsSpeech config) (ps.take (i+1))) := by
  have hc := (stateAfter_new_spec config (ps.take i)).1
  have hs := (stateAfter_new_spec config (ps.take i)).2.1
  rw [vadEvents, runList_getElem? ps _ i h, Option.some_inj, process_start_iff, hc, hs,
      take_succ_getElem ps i h, trailingRun_concat]
  cases hsp : vadIsSpeech config ps[i] <;> simp [hsp]

/-- Event characterization: `SpeechEnd` is returned by call `i` iff the machine was speaking before that
call, chunk `i` classifies as silence, and the trailing run of consecutive
silence-classified chunks through chunk `i` has reached `min_silence_chunks`. -/
theorem vad_end_iff (config : VadConfig) (ps : List ℚ) (i : ℕ) (h : i < ps.length) :
    (vadEvents config ps)[i]? = some (some VadEvent.SpeechEnd) ↔
      (((VadStateMachine.new config).stateAfter (ps.take i)).is_speaking = true ∧
       vadIsSpeech config ps[i] = false ∧
       config.min_silence_chunks ≤
         trailingRun (fun p => !(vadIsSpeech config p)) (ps.take (i+1))) := by
  have hc := (stateAfter_new_spec config (ps.take i)).1
  have hl := (stateAfter_new_spec config (ps.take i)).2.2
  rw [vadEvents, runList_getElem? ps _ i h, Option.some_inj, process_end_iff, hc, hl,
      take_succ_getElem ps i h, trailingRun_concat]
  cases hsp : vadIsSpeech config ps[i] <;> simp [hsp]

/-- Call `i` returns no event iff it returns neither `SpeechStart` nor `SpeechEnd`. -/
theorem vad_none_iff (config : VadConfig) (ps : List ℚ) (i : ℕ) (h : i < ps.length) :
    (vadEvents config ps)[i]? = some none ↔
      (¬ (vadEvents config ps)[i]? = some (some VadEvent.SpeechStart) ∧
       ¬ (vadEvents config ps)[i]? = some (some VadEvent.SpeechEnd)) := by
  rw [vadEvents, runList_getElem? ps _ i h]
  generalize (((VadStateMachine.new config).stateAfter (ps.take i)).process ps[i]).2 = e
  cases e with
  | none => simp
  | some ev => cases ev <;> simp

theorem takeWhile_replicate_cons (pred : ℚ → Bool) (x b : ℚ) (rest : List ℚ)
    (hx : pred x = true) (hb : pred b = false) (k : ℕ) :
    List.takeWhile pred (List.replicate k x ++ b :: rest) = List.replicate k x := by
  induction k with
  | zero => simp [List.takeWhile_cons, hb]
  | succ k ih => simp [List.replicate_succ, List.takeWhile_cons, hx, ih]

theorem trailingRun_append_cons_replicate (pred : ℚ → Bool) (u : List ℚ) (b x : ℚ)
    (j : ℕ) (hb : pred b = false) (hx : pred x = true) :
    trailingRun pred (u ++ b :: List.replicate j x) = j := by
  unfold trailingRun
  rw [List.reverse_append, List.reverse_cons, List.reverse_replicate, List.append_assoc,
      List.singleton_append, takeWhile_replicate_cons pred x b _ hx hb,
      List.length_replicate]

/-- Trailing-run bound for the interrupted pattern `a` speech chunks, one silence
chunk, `a` speech chunks: every prefix has a trailing speech run of at most `a`. -/
theorem trailingRun_take_pattern (pred : ℚ → Bool) (x b : ℚ) (a n : ℕ)
    (hx : pred x = true) (hb : pred b = false) :
    trailingRun pred ((List.replicate a x ++ b :: List.replicate a x).take n) ≤ a := by
  rcases le_or_lt n a with hn | hn
  · calc trailingRun pred ((List.replicate a x ++ b :: List.replicate a x).take n)
        ≤ ((List.replicate a x ++ b :: List.replicate a x).take n).length :=
          trailingRun_le_length _ _
      _ ≤ n := by simp
      _ ≤ a := hn
  · have h1 : (List.replicate a x).take n = List.replicate a x :=
      List.take_of_length_le (by simpa using hn.le)
    obtain ⟨m, hm⟩ : ∃ m, n - a = m + 1 := ⟨n - a - 1, by omega⟩
    rw [List.take_append_eq_append_take, h1, List.length_replicate, hm,
        List.take_succ_cons, List.take_replicate,
        trailingRun_append_cons_replicate pred _ b x _ hb hx]
    exact min_le_right m a

/-- The interrupted pattern `min_speech_chunks - 1` speech chunks, one silence
chunk, `min_speech_chunks - 1` speech chunks never produces `SpeechStart`. -/
theorem vad_pattern_no_start (config : VadConfig) (hi lo : ℚ)
    (hhi : vadIsSpeech config hi = true) (hlo : vadIsSpeech config lo = false)
    (hmin : 1 ≤ config.min_speech_chunks) :
    ∀ ev ∈ vadEvents config
        (List.replicate (config.min_speech_chunks - 1) hi ++
          lo :: List.replicate (config.min_speech_chunks - 1) hi),
      ev ≠ some VadEvent.SpeechStart := by
  intro ev hmem hstart
  subst hstart
  obtain ⟨i, hi_lt, hget⟩ := List.getElem_of_mem hmem
  have hplt : i < (List.replicate (config.min_speech_chunks - 1) hi ++
      lo :: List.replicate (config.min_speech_chunks - 1) hi).length := by
    rw [vadEvents, runList_length] at hi_lt
    exact hi_lt
  have hq : (vadEvents config (List.replicate (config.min_speech_chunks - 1) hi ++
      lo :: List.replicate (config.min_speech_chunks - 1) hi))[i]? =
      some (some VadEvent.SpeechStart) := by
    rw [List.getElem?_eq_getElem hi_lt, hget]
  have hrun := ((vad_start_iff config _ i hplt).mp hq).2.2
  have hbound := trailingRun_take_pattern (vadIsSpeech config) hi lo
    (config.min_speech_chunks - 1) (i+1) hhi hlo
  omega

/-- C1: for every probability sequence fed to `VadStateMachine::process`, a chunk
counts as speech iff its probability is `>=` the threshold (inclusive, via
`vadIsSpeech`); `SpeechStart` is returned exactly on a call where, while not
speaking, the consecutive speech run reaches `min_speech_chunks`; `SpeechEnd`
exactly on a call where, while speaking, the consecutive silence run reaches
`min_silence_chunks`; all other calls return no event; and the interrupted
pattern (`min_speech_chunks - 1` speech, one silence, `min_speech_chunks - 1`
speech) never produces `SpeechStart`. -/
theorem vad_hysteresis_event_characterization (config : VadConfig) (ps : List ℚ)
    (i : ℕ) (h : i < ps.length) :
    ((vadEvents config ps)[i]? = some (some VadEvent.SpeechStart) ↔
      (((VadStateMachine.new config).stateAfter (ps.take i)).is_speaking = false ∧
       vadIsSpeech config ps[i] = true ∧
       config.min_speech_chunks ≤ trailingRun (vadIsSpeech config) (ps.take (i+1)))) ∧
    ((vadEvents config ps)[i]? = some (some VadEvent.SpeechEnd) ↔
      (((VadStateMachine.new config).stateAfter (ps.take i)).is_speaking = true ∧
       vadIsSpeech config ps[i] = false ∧
       config.min_silence_chunks ≤
         trailingRun (fun p => !(vadIsSpeech config p)) (ps.take (i+1)))) ∧
    ((vadEvents config ps)[i]? = some none ↔
      (¬ (vadEvents config ps)[i]? = some (some VadEvent.SpeechStart) ∧
       ¬ (vadEvents config ps)[i]? = some (some VadEvent.SpeechEnd))) ∧
    (∀ hi lo : ℚ, config.threshold ≤ hi → lo < config.threshold →
      1 ≤ config.min_speech_chunks →
      ∀ ev ∈ vadEvents config
          (List.replicate (config.min_speech_chunks - 1) hi ++
            lo :: List.replicate (config.min_speech_chunks - 1) hi),
        ev ≠ some VadEvent.SpeechStart) := by
  refine ⟨vad_start_iff config ps i h, vad_end_iff config ps i h,
    vad_none_iff config ps i h, ?_⟩
  intro hi lo hhi hlo hmin
  exact vad_pattern_no_start config hi lo
    (by simpa [vadIsSpeech] using hhi)
    (by simpa [vadIsSpeech] using hlo) hmin

/-- Witness for C1 at the spec §8 scenario: with the default configuration and
probabilities 0.2, 0.8, 0.9, the third call returns `SpeechStart`. -/
theorem vad_hysteresis_event_characterization_witness :
    2 < psW.length ∧ (vadEvents cfgW psW)[2]? = some (some VadEvent.SpeechStart) :=
  ⟨by decide,
   ((vad_hysteresis_event_characterization cfgW psW 2 (by decide)).1).mpr (by decide)⟩

/-- C9 counterexample: in the freshly constructed `VadStateMachine` both counters
are zero, so "exactly one of the counters is nonzero" fails before any chunk has
been processed. -/
theorem vad_counter_invariant_counterexample :
    ¬ exactlyOneCounterNonzero (VadStateMachine.new cfgW) := by
  simp [exactlyOneCounterNonzero, VadStateMachine.new]

/-- C9 (amended): the freshly constructed state has both counters zero (so only
"at most one counter is nonzero" holds there); every single `process` step
establishes "exactly one counter is nonzero"; hence at most one counter is
nonzero in every reachable state, and exactly one is nonzero after any nonempty
sequence of `process` calls. -/
theorem vad_counter_invariant (config : VadConfig) (ps : List ℚ) :
    ((VadStateMachine.new config).speech_chunk_count = 0 ∧
     (VadStateMachine.new config).silence_chunk_count = 0) ∧
    (∀ (m : VadStateMachine) (p : ℚ), exactlyOneCounterNonzero ((m.process p).1)) ∧
    atMostOneCounterNonzero ((VadStateMachine.new config).stateAfter ps) ∧
    (ps ≠ [] → exactlyOneCounterNonzero ((VadStateMachine.new config).stateAfter ps)) := by
  have hstep : ∀ (m : VadStateMachine) (p : ℚ),
      exactlyOneCounterNonzero ((m.process p).1) := by
    intro m p
    cases hsp : vadIsSpeech m.config p
    · have hc := process_silence_counts m p hsp
      exact Or.inr ⟨hc.1, by omega⟩
    · have hc := process_speech_counts m p hsp
      exact Or.inl ⟨by omega, hc.2⟩
  have hlast : ps ≠ [] → exactlyOneCounterNonzero ((VadStateMachine.new config).stateAfter ps) := by
    intro hne
    rcases List.eq_nil_or_concat ps with hnil | ⟨l, b, rfl⟩
    · exact absurd hnil hne
    · rw [List.concat_eq_append, stateAfter_concat]
      exact hstep _ b
  refine ⟨⟨rfl, rfl⟩, hstep, ?_, hlast⟩
  rcases ps.eq_nil_or_concat with hnil | ⟨l, b, rfl⟩
  · subst hnil; exact Or.inl rfl
  · rcases hlast (by simp) with h | h
    · exact Or.inr h.2
    · exact Or.inl h.1

/-- Witness for the amended C9 at a concrete nonempty probability sequence. -/
theorem vad_counter_invariant_witness :
    psW ≠ [] ∧ exactlyOneCounterNonzero ((VadStateMachine.new cfgW).stateAfter psW) :=
  ⟨by simp [psW], (vad_counter_invariant cfgW psW).2.2.2 (by simp [psW])⟩

-- ### Engine run-loop chunk handling (C2, C3)

/-- C2: per complete VAD-sized chunk in `Engine::run_loop`, the chunk is appended
to the speech buffer exactly when the VAD reported speaking before the chunk was
processed or processing it produced `SpeechStart`; the `SpeechStart` chunk is
included (after the buffer is cleared) and no chunk is ever appended twice; on
`SpeechEnd` the chunk is part of the buffer handed to transcription. -/
theorem engine_chunk_buffer_once (infer : List ℚ → Except String (List String))
    (st : EngineLoopState) (chunk : List ℚ) (prob : ℚ) :
    ((st.sm.process prob).2 = some VadEvent.SpeechStart →
      st.sm.is_speaking = false ∧
      (Engine.processVadChunk infer st chunk prob).1.speech_buffer = chunk ∧
      (Engine.processVadChunk infer st chunk prob).2 = []) ∧
    ((st.sm.process prob).2 = none →
      (Engine.processVadChunk infer st chunk prob).1.speech_buffer =
        (if st.sm.is_speaking then st.speech_buffer ++ chunk else st.speech_buffer) ∧
      (Engine.processVadChunk infer st chunk prob).2 = []) ∧
    ((st.sm.process prob).2 = some VadEvent.SpeechEnd →
      st.sm.is_speaking = true ∧
      (Engine.processVadChunk infer st chunk prob).2 =
        speechEndOutputs infer (st.speech_buffer ++ chunk) ∧
      (Engine.processVadChunk infer st chunk prob).1.speech_buffer = []) := by
  rcases hp : st.sm.process prob with ⟨sm1, ev⟩
  refine ⟨?_, ?_, ?_⟩
  · intro hev
    have hevv : ev = some VadEvent.SpeechStart := hev
    subst hevv
    have hns : st.sm.is_speaking = false :=
      ((process_start_iff st.sm prob).mp (by rw [hp])).2.1
    refine ⟨hns, ?_, ?_⟩ <;> simp [Engine.processVadChunk, hp]
  · intro hev
    have hevv : ev = none := hev
    subst hevv
    refine ⟨?_, ?_⟩ <;> simp [Engine.processVadChunk, hp]
  · intro hev
    have hevv : ev = some VadEvent.SpeechEnd := hev
    subst hevv
    have hsp : st.sm.is_speaking = true :=
      ((process_end_iff st.sm prob).mp (by rw [hp])).2.1
    refine ⟨hsp, ?_, ?_⟩ <;> simp [Engine.processVadChunk, hp, hsp]

/-- Witness for C2: a chunk that triggers `SpeechStart` becomes the whole buffer. -/
theorem engine_chunk_buffer_once_witness :
    (stStart0.sm.process (mkRat 4 5)).2 = some VadEvent.SpeechStart ∧
    (Engine.processVadChunk infer0 stStart0 chunk0 (mkRat 4 5)).1.speech_buffer = chunk0 :=
  ⟨by decide,
   (((engine_chunk_buffer_once infer0 stStart0 chunk0 (mkRat 4 5)).1) (by decide)).2.1⟩

/-- C3: on a `SpeechEnd` chunk, the VAD was speaking so the chunk joined the
buffer; the buffer is cleared afterwards regardless of the transcription
outcome; with an empty buffer the transcriber is never consulted (the result is
independent of it); on success the callback text is the trimmed segment
concatenation and is delivered only when non-empty; on transcription error no
callback fires and the step still completes with a cleared buffer. -/
theorem engine_speech_end_handling (infer : List ℚ → Except String (List String))
    (st : EngineLoopState) (chunk : List ℚ) (prob : ℚ)
    (hEnd : (st.sm.process prob).2 = some VadEvent.SpeechEnd) :
    st.sm.is_speaking = true ∧
    (Engine.processVadChunk infer st chunk prob).1.speech_buffer = [] ∧
    (Engine.processVadChunk infer st chunk prob).2 =
      speechEndOutputs infer (st.speech_buffer ++ chunk) ∧
    (st.speech_buffer ++ chunk = [] →
      ∀ infer2, Engine.processVadChunk infer st chunk prob =
        Engine.processVadChunk infer2 st chunk prob) ∧
    (∀ segments, infer (st.speech_buffer ++ chunk) = Except.ok segments →
      st.speech_buffer ++ chunk ≠ [] →
      (Engine.processVadChunk infer st chunk prob).2 =
        (if (segments.foldl (fun acc s => acc ++ s) "").trim = "" then []
         else [(segments.foldl (fun acc s => acc ++ s) "").trim])) ∧
    (∀ msg, infer (st.speech_buffer ++ chunk) = Except.error msg →
      (Engine.processVadChunk infer st chunk prob).2 = []) := by
  rcases hp : st.sm.process prob with ⟨sm1, ev⟩
  have hevv : ev = some VadEvent.SpeechEnd := by rw [hp] at hEnd; exact hEnd
  subst hevv
  have hsp : st.sm.is_speaking = true :=
    ((process_end_iff st.sm prob).mp (by rw [hp])).2.1
  refine ⟨hsp, by simp [Engine.processVadChunk, hp],
    by simp [Engine.processVadChunk, hp, hsp], ?_, ?_, ?_⟩
  · intro hempty infer2
    simp [Engine.processVadChunk, hp, hsp, hempty, speechEndOutputs]
  · intro segments hok hne
    simp [Engine.processVadChunk, hp, hsp, speechEndOutputs, hne,
      WhisperTranscriber.transcribe, hok]
  · intro msg herr
    rcases hB : st.speech_buffer ++ chunk with _ | ⟨x, xs⟩
    · simp [Engine.processVadChunk, hp, hsp, hB, speechEndOutputs]
    · simp [Engine.processVadChunk, hp, hsp, hB, speechEndOutputs,
        WhisperTranscriber.transcribe, hB ▸ herr]

/-- Witness for C3: a `SpeechEnd` chunk clears the buffer. -/
theorem engine_speech_end_handling_witness :
    (stEnd0.sm.process (mkRat 1 10)).2 = some VadEvent.SpeechEnd ∧
    (Engine.processVadChunk infer0 stEnd0 chunk0 (mkRat 1 10)).1.speech_buffer = [] :=
  ⟨by decide,
   (engine_speech_end_handling infer0 stEnd0 chunk0 (mkRat 1 10) (by decide)).2.1⟩

-- ### Engine readiness gate (C5)

/-- C5: `Engine::run_loop` on an engine whose components were never loaded fails
with the distinguishable `notInitialized` error and performs no device I/O
(`AudioCapture::start` is not invoked). -/
theorem run_loop_requires_init {V T : Type} (e : Engine V T)
    (captureStart : Except String ℕ) (h : e.components = none) :
    (e.runLoopEntry captureStart).1 = Except.error RunLoopError.notInitialized ∧
    (e.runLoopEntry captureStart).2 = false ∧
    (∀ msg, RunLoopError.notInitialized ≠ RunLoopError.captureStartFailed msg) := by
  refine ⟨?_, ?_, fun msg => by simp⟩ <;> simp [Engine.runLoopEntry, h]

/-- Witness for C5 on a concrete uninitialized engine. -/
theorem run_loop_requires_init_witness :
    engineNone0.components = none ∧
    (engineNone0.runLoopEntry (Except.ok 48000)).1 =
      Except.error RunLoopError.notInitialized ∧
    (engineNone0.runLoopEntry (Except.ok 48000)).2 = false :=
  ⟨rfl, (run_loop_requires_init engineNone0 (Except.ok 48000) rfl).1,
   (run_loop_requires_init engineNone0 (Except.ok 48000) rfl).2.1⟩

-- ### AudioBuffer duration guard (C10)

/-- C10: `AudioBuffer::duration_secs` returns exactly 0 for a zero sample rate,
never reaching the division. -/
theorem duration_secs_zero_rate (b : AudioBuffer) (h : b.sample_rate = 0) :
    b.duration_secs = 0 := by
  simp [AudioBuffer.duration_secs, h]

/-- Witness for C10 on a concrete buffer with samples but zero rate. -/
theorem duration_secs_zero_rate_witness :
    bufZeroRate0.sample_rate = 0 ∧ bufZeroRate0.duration_secs = 0 :=
  ⟨rfl, duration_secs_zero_rate bufZeroRate0 rfl⟩

-- ### Engine initialization lifecycle (C6)

/-- C6: a failing `Engine::initialize` leaves the engine exactly as it was (so an
uninitialized engine stays uninitialized and the call can be retried); the
engine becomes initialized only through a successful call, whose last reported
progress event is `Ready`; and a retry with successful collaborators always
succeeds and initializes the engine. -/
theorem engine_init_failure_leaves_uninitialized {V T : Type} (e : Engine V T)
    (wn : String) (ev ew : Except String String)
    (mkV : String → Except String V) (mkT : String → Except String T) :
    (∀ msg, (e.initializeEngine wn ev ew mkV mkT).2.1 = Except.error msg →
      (e.initializeEngine wn ev ew mkV mkT).1 = e) ∧
    ((e.initializeEngine wn ev ew mkV mkT).2.1 = Except.ok () →
      ((e.initializeEngine wn ev ew mkV mkT).1).is_initialized = true ∧
      ((e.initializeEngine wn ev ew mkV mkT).2.2).getLast? = some InitEvent.Ready) ∧
    (((e.initializeEngine wn ev ew mkV mkT).1).is_initialized = true →
      e.is_initialized = true ∨
      (e.initializeEngine wn ev ew mkV mkT).2.1 = Except.ok ()) ∧
    (∀ (e2 : Engine V T) (p1 p2 : String) (v : V) (t : T),
      (e2.initializeEngine wn (Except.ok p1) (Except.ok p2)
        (fun _ => Except.ok v) (fun _ => Except.ok t)).2.1 = Except.ok () ∧
      ((e2.initializeEngine wn (Except.ok p1) (Except.ok p2)
        (fun _ => Except.ok v) (fun _ => Except.ok t)).1).is_initialized = true) := by
  have hmain :
      ((e.initializeEngine wn ev ew mkV mkT).1 = e ∧
        (∃ msg, (e.initializeEngine wn ev ew mkV mkT).2.1 = Except.error msg)) ∨
      ((e.initializeEngine wn ev ew mkV mkT).2.1 = Except.ok () ∧
        ((e.initializeEngine wn ev ew mkV mkT).1).is_initialized = true ∧
        ((e.initializeEngine wn ev ew mkV mkT).2.2).getLast? = some InitEvent.Ready) := by
    cases ev with
    | error m => exact Or.inl ⟨rfl, m, rfl⟩
    | ok vp =>
      cases ew with
      | error m => exact Or.inl ⟨rfl, m, rfl⟩
      | ok wp =>
        cases hv : mkV vp with
        | error m =>
          refine Or.inl ⟨?_, m, ?_⟩ <;> simp [Engine.initializeEngine, hv]
        | ok v =>
          cases ht : mkT wp with
          | error m =>
            refine Or.inl ⟨?_, m, ?_⟩ <;> simp [Engine.initializeEngine, hv, ht]
          | ok t =>
            refine Or.inr ⟨?_, ?_, ?_⟩ <;>
              simp [Engine.initializeEngine, hv, ht, Engine.is_initialized]
  refine ⟨?_, ?_, ?_, ?_⟩
  · intro msg hmsg
    rcases hmain with ⟨he, -⟩ | ⟨hok, -, -⟩
    · exact he
    · rw [hok] at hmsg; exact absurd hmsg (by simp)
  · intro hok
    rcases hmain with ⟨-, msg, herr⟩ | ⟨-, hinit, hlast⟩
    · rw [herr] at hok; exact absurd hok (by simp)
    · exact ⟨hinit, hlast⟩
  · intro hinit
    rcases hmain with ⟨he, -⟩ | ⟨hok, -, -⟩
    · rw [he] at hinit; exact Or.inl hinit
    · exact Or.inr hok
  · intro e2 p1 p2 v t
    exact ⟨rfl, rfl⟩

/-- Witness for C6: a failed model download leaves the engine unchanged. -/
theorem engine_init_failure_leaves_uninitialized_witness :
    ((engineNone0.initializeEngine "whisper-tiny" (Except.error "download failed")
        (Except.ok "w.bin") (fun _ => Except.ok ()) (fun _ => Except.ok ())).2.1 =
      Except.error "download failed") ∧
    (engineNone0.initializeEngine "whisper-tiny" (Except.error "download failed")
        (Except.ok "w.bin") (fun _ => Except.ok ()) (fun _ => Except.ok ())).1 =
      engineNone0 :=
  ⟨rfl,
   (engine_init_failure_leaves_uninitialized engineNone0 "whisper-tiny"
      (Except.error "download failed") (Except.ok "w.bin")
      (fun _ => Except.ok ()) (fun _ => Except.ok ())).1 "download failed" rfl⟩

-- ### Controller state machine (C7, C8)

theorem controller_set_engine_self {V T : Type} (c : Controller V T) (e : Engine V T)
    (h : c.engine = some e) : ({ c with engine := some e } : Controller V T) = c := by
  cases c
  simp_all

/-- C7: `start_listening` from `Paused` with a missing engine fails leaving the
controller untouched; from `Paused` with a present but uninitialized engine it
fails, keeps the state `Paused` and puts the engine back; from `Listening` it is
an idempotent success changing nothing; from `Stopped` and `Initializing` it is
rejected with a descriptive error without changing state. -/
theorem controller_start_listening_cases {V T : Type} (c : Controller V T)
    (e : Engine V T) :
    (c.state = ControllerState.Paused → c.engine = none →
      c.start_listening = (c, Except.error "Engine not available", [])) ∧
    (c.state = ControllerState.Paused → c.engine = some e →
      e.is_initialized = false →
      (c.start_listening).1 = c ∧
      (c.start_listening).2.1 = Except.error "Engine not initialized" ∧
      (c.start_listening).1.engine = some e ∧
      (c.start_listening).1.state = ControllerState.Paused) ∧
    (c.state = ControllerState.Listening →
      c.start_listening = (c, Except.ok (), [])) ∧
    (c.state = ControllerState.Stopped →
      c.start_listening = (c, Except.error "Daemon is stopped", [])) ∧
    (c.state = ControllerState.Initializing →
      c.start_listening = (c, Except.error "Daemon is still initializing", [])) := by
  refine ⟨?_, ?_, ?_, ?_, ?_⟩
  · intro hs he
    simp [Controller.start_listening, hs, he]
  · intro hs he hinit
    obtain ⟨st, en, eh, tx⟩ := c
    obtain rfl : st = ControllerState.Paused := hs
    obtain rfl : en = some e := he
    refine ⟨?_, ?_, ?_, ?_⟩ <;> simp [Controller.start_listening, hinit]
  · intro hs
    simp [Controller.start_listening, hs]
  · intro hs
    simp [Controller.start_listening, hs]
  · intro hs
    simp [Controller.start_listening, hs]

/-- Witness for C7: paused controller holding an uninitialized engine. -/
theorem controller_start_listening_cases_witness :
    ctrlPaused0.state = ControllerState.Paused ∧
    ctrlPaused0.engine = some engineNone0 ∧
    engineNone0.is_initialized = false ∧
    (ctrlPaused0.start_listening).1 = ctrlPaused0 ∧
    (ctrlPaused0.start_listening).2.1 = Except.error "Engine not initialized" :=
  ⟨rfl, rfl, rfl,
   ((controller_start_listening_cases ctrlPaused0 engineNone0).2.1 rfl rfl rfl).1,
   ((controller_start_listening_cases ctrlPaused0 engineNone0).2.1 rfl rfl rfl).2.1⟩

theorem stop_listening_shutdown_tx {V T : Type} (c : Controller V T) :
    ((c.stop_listening).1).shutdown_tx = c.shutdown_tx := by
  cases hs : c.state <;> simp [Controller.stop_listening, hs]
  cases hh : c.engine_handle <;> simp

theorem shutdown_effects {V T : Type} (c : Controller V T) :
    ((c.shutdown).1).state = ControllerState.Stopped ∧
    ((c.shutdown).1).shutdown_tx = none ∧
    (c.shutdown).2.2 = (if c.shutdown_tx.isSome then 1 else 0) ∧
    (c.shutdown).2.1 =
      (c.stop_listening).2.2 ++ [CtrlEvent.StateChange ControllerState.Stopped] := by
  have htx := stop_listening_shutdown_tx c
  rcases hst : c.stop_listening with ⟨c1, res, evs⟩
  rw [hst] at htx
  cases hc : c1.shutdown_tx with
  | none =>
    refine ⟨?_, ?_, ?_, ?_⟩ <;>
      simp [Controller.shutdown, hst, hc, ← htx]
  | some u =>
    refine ⟨?_, ?_, ?_, ?_⟩ <;>
      simp [Controller.shutdown, hst, hc, ← htx]

/-- C8: `shutdown` from any state leaves the controller `Stopped` with the
one-shot sender consumed; it sends the shutdown signal exactly once when the
sender is still armed and never on a later call (so at most one signal across
all calls); and it first performs a best-effort `stop_listening`, whose
broadcasts precede the final `Stopped` broadcast. -/
theorem controller_shutdown_idempotent {V T : Type} (c : Controller V T) :
    ((c.shutdown).1).state = ControllerState.Stopped ∧
    ((c.shutdown).1).shutdown_tx = none ∧
    (c.shutdown).2.2 = (if c.shutdown_tx.isSome then 1 else 0) ∧
    (((c.shutdown).1).shutdown).2.2 = 0 ∧
    (c.shutdown).2.1 =
      (c.stop_listening).2.2 ++ [CtrlEvent.StateChange ControllerState.Stopped] := by
  obtain ⟨h1, h2, h3, h4⟩ := shutdown_effects c
  obtain ⟨-, -, h3b, -⟩ := shutdown_effects ((c.shutdown).1)
  refine ⟨h1, h2, h3, ?_, h4⟩
  rw [h3b, h2]
  simp

-- ### Resampler length law (C4)

theorem resampleChunks_length {σ : Type} (inner : σ → List ℚ → σ × List ℚ)
    (cs cout : ℕ) (hcs : 0 < cs)
    (hout : ∀ (s : σ) (c : List ℚ), c.length = cs → ((inner s c).2).length = cout) :
    ∀ (n : ℕ) (input : List ℚ), input.length ≤ n → ∀ (s : σ),
      ((resampleChunks inner cs s input).2).length = (input.length / cs) * cout := by
  intro n
  induction n with
  | zero =>
    intro input hle s
    have h0 : input.length = 0 := Nat.le_zero.mp hle
    rw [resampleChunks, dif_neg (by omega)]
    simp [h0]
  | succ n ih =>
    intro input hle s
    rw [resampleChunks]
    split
    · next h =>
      show ((inner s (input.take cs)).2 ++
        (resampleChunks inner cs (inner s (input.take cs)).1 (input.drop cs)).2).length = _
      rw [List.length_append,
          hout _ _ (by rw [List.length_take]; omega),
          ih (input.drop cs) (by rw [List.length_drop]; omega) _,
          List.length_drop]
      have hdd : input.length / cs = (input.length - cs) / cs + 1 := by
        conv_lhs => rw [← Nat.sub_add_cancel h.2]
        rw [Nat.add_div_right _ hcs]
      rw [hdd]
      ring
    · next h =>
      have hlt : input.length < cs := by
        by_contra hcon
        exact h ⟨hcs, by omega⟩
      simp [Nat.div_eq_of_lt hlt]

theorem resampleChunks_take {σ : Type} (inner : σ → List ℚ → σ × List ℚ)
    (cs : ℕ) (hcs : 0 < cs) :
    ∀ (n : ℕ) (input : List ℚ), input.length ≤ n → ∀ (s : σ),
      resampleChunks inner cs s input =
        resampleChunks inner cs s (input.take (cs * (input.length / cs))) := by
  intro n
  induction n with
  | zero =>
    intro input hle s
    have h0 : input = [] := List.eq_nil_of_length_eq_zero (Nat.le_zero.mp hle)
    subst h0
    simp
  | succ n ih =>
    intro input hle s
    rcases Nat.lt_or_ge input.length cs with hlt | hge
    · rw [Nat.div_eq_of_lt hlt, Nat.mul_zero, List.take_zero]
      rw [resampleChunks, dif_neg (by omega)]
      rw [resampleChunks, dif_neg (by intro hcon; simp at hcon; omega)]
    · have hk1 : 1 ≤ input.length / cs := (Nat.one_le_div_iff hcs).mpr hge
      have hcsM : cs ≤ cs * (input.length / cs) := by
        calc cs = cs * 1 := (Nat.mul_one cs).symm
          _ ≤ cs * (input.length / cs) := Nat.mul_le_mul_left cs hk1
      have hle2 : cs * (input.length / cs) ≤ input.length := by
        calc cs * (input.length / cs) = input.length / cs * cs := Nat.mul_comm _ _
          _ ≤ input.length := Nat.div_mul_le_self _ _
      have hcs_le_tr : cs ≤ (input.take (cs * (input.length / cs))).length := by
        rw [List.length_take]; omega
      have htake : (input.take (cs * (input.length / cs))).take cs = input.take cs := by
        rw [List.take_take, Nat.min_eq_left hcsM]
      have hdd : input.length / cs = (input.length - cs) / cs + 1 := by
        conv_lhs => rw [← Nat.sub_add_cancel hge]
        rw [Nat.add_div_right _ hcs]
      have hdrop : (input.take (cs * (input.length / cs))).drop cs =
          (input.drop cs).take (cs * ((input.drop cs).length / cs)) := by
        rw [List.drop_take]
        congr 1
        rw [List.length_drop, hdd, Nat.mul_add, Nat.mul_one]
        omega
      rw [resampleChunks]
      conv_rhs => rw [resampleChunks]
      rw [dif_pos ⟨hcs, hge⟩, dif_pos ⟨hcs, hcs_le_tr⟩]
      simp only [htake, hdrop]
      rw [ih (input.drop cs) (by rw [List.length_drop]; omega)]

/-- C4: `AudioResampler::process` produces exactly
`floor(len / chunk_size_in) * output_chunk_size()` output samples; the empty
slice yields the empty output and the unchanged resampler; and the partial tail
beyond the last complete chunk contributes nothing — the result equals the
result on the input truncated to its complete chunks (so the tail is neither
resampled nor buffered). -/
theorem resampler_length_law {σ : Type} (r : AudioResampler σ) (input : List ℚ)
    (hcs : 0 < r.chunk_size_in)
    (hout : ∀ (s : σ) (c : List ℚ), c.length = r.chunk_size_in →
      ((r.inner s c).2).length = r.chunk_size_out) :
    ((r.process input).2).length =
      (input.length / r.chunk_size_in) * r.chunk_size_out ∧
    r.process [] = (r, []) ∧
    r.process input =
      r.process (input.take (r.chunk_size_in * (input.length / r.chunk_size_in))) := by
  refine ⟨?_, rfl, ?_⟩
  · cases hin : input.isEmpty with
    | true =>
      have h0 : input = [] := by simpa using hin
      subst h0
      simp [AudioResampler.process]
    | false =>
      simp only [AudioResampler.process, hin, Bool.false_eq_true, if_false]
      exact resampleChunks_length r.inner r.chunk_size_in r.chunk_size_out hcs hout
        input.length input le_rfl r.state
  · cases hin : input.isEmpty with
    | true =>
      have h0 : input = [] := by simpa using hin
      subst h0
      simp
    | false =>
      rcases Nat.lt_or_ge input.length r.chunk_size_in with hlt | hge
      · have hres : resampleChunks r.inner r.chunk_size_in r.state input =
            (r.state, []) := by
          rw [resampleChunks, dif_neg (by omega)]
        rw [Nat.div_eq_of_lt hlt, Nat.mul_zero, List.take_zero]
        simp [AudioResampler.process, hin, hres]
      · have hk1 : 1 ≤ input.length / r.chunk_size_in :=
          (Nat.one_le_div_iff hcs).mpr hge
        have hcsM : r.chunk_size_in ≤
            r.chunk_size_in * (input.length / r.chunk_size_in) := by
          calc r.chunk_size_in = r.chunk_size_in * 1 := (Nat.mul_one _).symm
            _ ≤ r.chunk_size_in * (input.length / r.chunk_size_in) :=
              Nat.mul_le_mul_left _ hk1
        have htrne : (input.take (r.chunk_size_in *
            (input.length / r.chunk_size_in))).isEmpty = false := by
          cases htr : (input.take (r.chunk_size_in *
              (input.length / r.chunk_size_in))).isEmpty with
          | false => rfl
          | true =>
            have hnil : input.take (r.chunk_size_in *
                (input.length / r.chunk_size_in)) = [] := by simpa using htr
            have hlen := congrArg List.length hnil
            rw [List.length_take, List.length_nil] at hlen
            omega
        simp only [AudioResampler.process, hin, htrne, Bool.false_eq_true, if_false]
        rw [resampleChunks_take r.inner r.chunk_size_in hcs input.length input
          le_rfl r.state]

/-- Witness for C4: 5 input samples through a 2-in/3-out resampler produce
exactly 2 complete chunks and 6 output samples; the trailing sample is dropped. -/
theorem resampler_length_law_witness :
    0 < resampler0.chunk_size_in ∧
    ((resampler0.process resamplerInput0).2).length = 6 := by
  refine ⟨by decide, ?_⟩
  have h := (resampler_length_law resampler0 resamplerInput0 (by decide)
    (fun s c hc => rfl)).1
  rw [h]
  decide
